import Mathlib

/-!
Verification development for the aria-health streaming ingestion pipeline.

The pipeline turns committed speech-transcript increments into a structured
NEMSIS-shaped clinical record, gates a one-time downstream dispatch on record
completeness, and fans events out to dashboard subscribers.

Embedded components:
* the NEMSIS record data model and the field-merge algorithm
  (`app/models/nemsis.py`, `app/services/nemsis_extractor.py` — these modules
  are absent from the source tree; only their tests remain, so they are
  modelled from the spec and from the behaviour pinned by the tests);
* the completeness gate (`app/services/core_info_checker.py`, likewise absent);
* the event bus (`app/services/event_bus.py`, present in source);
* the committed-transcript normalization of the transcription listener
  (`app/services/transcription.py`, present in source);
* the GP-call branch of the downstream dispatcher
  (`app/services/voice_agent.py`, present in source).
-/

namespace AriaHealth

/-- Modelled from the spec: patient sub-record of the NEMSIS data model
(`app/models/nemsis.py` is absent from the source tree). Spec section 3:
"PatientInfo (name parts, age, gender, address fields) ... All scalar fields
are optional; absence means not yet known". Field names are the ones the
repository's tests construct (`tests/test_models.py`, `tests/test_services.py`). -/
structure NEMSISPatientInfo where
  patient_name_first : Option String := none
  patient_name_last : Option String := none
  patient_age : Option String := none
  patient_gender : Option String := none
  patient_address : Option String := none
  patient_city : Option String := none
  patient_state : Option String := none
  patient_zip : Option String := none
deriving DecidableEq

/-- Modelled from the spec: vitals sub-record, "numeric fields, all optional"
(spec section 3); field names from `tests/test_models.py`. The Python model
stores `blood_glucose` as a float; merging only null-tests scalars and never
computes with them, so the numeric carrier is irrelevant to every claim and
it is modelled as an integer here. -/
structure NEMSISVitals where
  systolic_bp : Option Int := none
  diastolic_bp : Option Int := none
  heart_rate : Option Int := none
  respiratory_rate : Option Int := none
  spo2 : Option Int := none
  blood_glucose : Option Int := none
  gcs_total : Option Int := none
deriving DecidableEq

/-- Modelled from the spec: situation sub-record, "chief complaint, primary
impression" (spec section 3); field names from the repository's tests. -/
structure NEMSISSituation where
  chief_complaint : Option String := none
  primary_impression : Option String := none
deriving DecidableEq

/-- Modelled from the spec: procedures sub-record, an ordered list of strings
(spec section 3); shape from `tests/test_models.py`. -/
structure NEMSISProcedures where
  procedures : List String := []
deriving DecidableEq

/-- Modelled from the spec: medications sub-record, an ordered list of strings
(spec section 3); shape from `tests/test_models.py`. -/
structure NEMSISMedications where
  medications : List String := []
deriving DecidableEq

/-- Modelled from the spec: the composite NEMSIS record of five sub-records
(spec section 3); defaults are fresh empty sub-records, as the tests verify. -/
structure NEMSISRecord where
  patient : NEMSISPatientInfo := {}
  vitals : NEMSISVitals := {}
  situation : NEMSISSituation := {}
  procedures : NEMSISProcedures := {}
  medications : NEMSISMedications := {}
deriving DecidableEq

/-- The default record with every scalar null and both lists empty. -/
def emptyRecord : NEMSISRecord := {}

/-- Modelled from the spec: the scalar half of the merge algorithm of
`_merge_records` (`app/services/nemsis_extractor.py` is absent from the source
tree). Spec section 4.2: "for each scalar field:
merged = existing if existing is not null else new". -/
def mergeScalar (existing newv : Option α) : Option α :=
  match existing with
  | some v => some v
  | none => newv

/-- Modelled from the spec: the list half of the merge algorithm of
`_merge_records`. Spec section 4.2: "For each list field:
merged = existing ++ (new \ existing), preserving existing order and appending
only genuinely new entries". -/
def mergeList (existing newl : List String) : List String :=
  existing ++ newl.filter (fun x => decide (x ∉ existing))

/-- Modelled from the spec: `_merge_records` of `app/services/nemsis_extractor.py`
(absent from the source tree; only `tests/test_services.py::TestMergeRecords`
remains). Applies `mergeScalar` to every scalar field and `mergeList` to both
list fields. -/
def merge_records (existing newr : NEMSISRecord) : NEMSISRecord :=
  { patient :=
      { patient_name_first :=
          mergeScalar existing.patient.patient_name_first newr.patient.patient_name_first
        patient_name_last :=
          mergeScalar existing.patient.patient_name_last newr.patient.patient_name_last
        patient_age := mergeScalar existing.patient.patient_age newr.patient.patient_age
        patient_gender :=
          mergeScalar existing.patient.patient_gender newr.patient.patient_gender
        patient_address :=
          mergeScalar existing.patient.patient_address newr.patient.patient_address
        patient_city := mergeScalar existing.patient.patient_city newr.patient.patient_city
        patient_state :=
          mergeScalar existing.patient.patient_state newr.patient.patient_state
        patient_zip := mergeScalar existing.patient.patient_zip newr.patient.patient_zip }
    vitals :=
      { systolic_bp := mergeScalar existing.vitals.systolic_bp newr.vitals.systolic_bp
        diastolic_bp := mergeScalar existing.vitals.diastolic_bp newr.vitals.diastolic_bp
        heart_rate := mergeScalar existing.vitals.heart_rate newr.vitals.heart_rate
        respiratory_rate :=
          mergeScalar existing.vitals.respiratory_rate newr.vitals.respiratory_rate
        spo2 := mergeScalar existing.vitals.spo2 newr.vitals.spo2
        blood_glucose :=
          mergeScalar existing.vitals.blood_glucose newr.vitals.blood_glucose
        gcs_total := mergeScalar existing.vitals.gcs_total newr.vitals.gcs_total }
    situation :=
      { chief_complaint :=
          mergeScalar existing.situation.chief_complaint newr.situation.chief_complaint
        primary_impression :=
          mergeScalar existing.situation.primary_impression
            newr.situation.primary_impression }
    procedures :=
      { procedures := mergeList existing.procedures.procedures newr.procedures.procedures }
    medications :=
      { medications :=
          mergeList existing.medications.medications newr.medications.medications } }

/-- Modelled from the spec: `is_core_info_complete` of
`app/services/core_info_checker.py` (absent from the source tree; only
`tests/test_services.py::TestCoreInfoChecker` remains). Spec section 4.3:
"isComplete(record) = (firstName present OR lastName present) AND address
present AND age present AND gender present". -/
def is_core_info_complete (r : NEMSISRecord) : Bool :=
  (r.patient.patient_name_first.isSome || r.patient.patient_name_last.isSome)
    && r.patient.patient_address.isSome
    && r.patient.patient_age.isSome
    && r.patient.patient_gender.isSome

/-- Modelled from the spec: `get_full_name` of `app/services/core_info_checker.py`
(absent from the source tree). Spec section 4.3: "First Last" using whichever
name parts exist, joined by a single space; "Unknown" if neither exists;
behaviour pinned by `tests/test_services.py::TestGetFullName`. -/
def get_full_name (r : NEMSISRecord) : String :=
  match r.patient.patient_name_first, r.patient.patient_name_last with
  | some f, some l => f ++ " " ++ l
  | some f, none => f
  | none, some l => l
  | none, none => "Unknown"

/-- Per-case completeness-gate state: the authoritative record, the ratcheted
`core_info_complete` flag, and a counter of downstream-dispatch invocations. -/
structure GateState where
  record : NEMSISRecord
  core_info_complete : Bool
  dispatches : Nat
deriving DecidableEq

/-- Modelled from the spec: the per-merge transition of the completeness gate
(the stream router that drives it is absent from the source tree). Spec
section 4.3: "on every successful merge, recompute isComplete; if it flips
from false to true, and only then, invoke the downstream dispatch exactly
once". -/
def gateStep (s : GateState) (fresh : NEMSISRecord) : GateState :=
  let merged := merge_records s.record fresh
  let complete := is_core_info_complete merged
  { record := merged
    core_info_complete := complete
    dispatches := s.dispatches + (if complete && !s.core_info_complete then 1 else 0) }

/-- Run the completeness gate over a sequence of freshly extracted records. -/
def gateRun (s : GateState) (l : List NEMSISRecord) : GateState :=
  l.foldl gateStep s

/-- The gate state of a newly created case: empty record, flag down, no
dispatches. -/
def initialGateState : GateState :=
  { record := emptyRecord, core_info_complete := false, dispatches := 0 }

/-- Modelled from the spec: `extract_nemsis` of `app/services/nemsis_extractor.py`
(absent from the source tree). The function dispatches on whether an LLM
backend is configured. The LLM path merges the parsed record into the
existing one (spec section 4.2); for the deterministic fallback path the
repository's own test `tests/test_services.py::test_extract_nemsis_with_existing`
documents: "In dummy mode, the result comes from _dummy_extract which doesn't
merge with existing (merge only happens in the real OpenAI path)". The model
is parametric in the backend's freshly extracted record, eliding the
pattern-recognition internals of the absent `_dummy_extract`. -/
def extract_nemsis (llmConfigured : Bool) (fresh : NEMSISRecord)
    (existing : Option NEMSISRecord) : NEMSISRecord :=
  if llmConfigured then merge_records (existing.getD emptyRecord) fresh else fresh

lemma mergeScalar_eq_some {e : Option α} (n : Option α) {v : α} (h : e = some v) :
    mergeScalar e n = some v := by
  subst h; rfl

lemma mergeScalar_eq_new {e : Option α} (n : Option α) (h : e = none) :
    mergeScalar e n = n := by
  subst h; rfl

lemma mergeScalar_isSome {e : Option α} (n : Option α) (h : e.isSome = true) :
    (mergeScalar e n).isSome = true := by
  cases e with
  | none => simp at h
  | some v => rfl

/-- C1. Scalar merge monotonicity: for every existing record and every newly
extracted record, for each scalar field, if the existing record's field is
non-null then the merged record's field equals the existing value, and if the
existing field is null the merged field equals the new value. -/
theorem merge_scalar_monotone (e n : NEMSISRecord) :
    ((∀ v, e.patient.patient_name_first = some v →
        (merge_records e n).patient.patient_name_first = some v)
      ∧ (e.patient.patient_name_first = none →
        (merge_records e n).patient.patient_name_first = n.patient.patient_name_first))
    ∧ ((∀ v, e.patient.patient_name_last = some v →
        (merge_records e n).patient.patient_name_last = some v)
      ∧ (e.patient.patient_name_last = none →
        (merge_records e n).patient.patient_name_last = n.patient.patient_name_last))
    ∧ ((∀ v, e.patient.patient_age = some v →
        (merge_records e n).patient.patient_age = some v)
      ∧ (e.patient.patient_age = none →
        (merge_records e n).patient.patient_age = n.patient.patient_age))
    ∧ ((∀ v, e.patient.patient_gender = some v →
        (merge_records e n).patient.patient_gender = some v)
      ∧ (e.patient.patient_gender = none →
        (merge_records e n).patient.patient_gender = n.patient.patient_gender))
    ∧ ((∀ v, e.patient.patient_address = some v →
        (merge_records e n).patient.patient_address = some v)
      ∧ (e.patient.patient_address = none →
        (merge_records e n).patient.patient_address = n.patient.patient_address))
    ∧ ((∀ v, e.patient.patient_city = some v →
        (merge_records e n).patient.patient_city = some v)
      ∧ (e.patient.patient_city = none →
        (merge_records e n).patient.patient_city = n.patient.patient_city))
    ∧ ((∀ v, e.patient.patient_state = some v →
        (merge_records e n).patient.patient_state = some v)
      ∧ (e.patient.patient_state = none →
        (merge_records e n).patient.patient_state = n.patient.patient_state))
    ∧ ((∀ v, e.patient.patient_zip = some v →
        (merge_records e n).patient.patient_zip = some v)
      ∧ (e.patient.patient_zip = none →
        (merge_records e n).patient.patient_zip = n.patient.patient_zip))
    ∧ ((∀ v, e.vitals.systolic_bp = some v →
        (merge_records e n).vitals.systolic_bp = some v)
      ∧ (e.vitals.systolic_bp = none →
        (merge_records e n).vitals.systolic_bp = n.vitals.systolic_bp))
    ∧ ((∀ v, e.vitals.diastolic_bp = some v →
        (merge_records e n).vitals.diastolic_bp = some v)
      ∧ (e.vitals.diastolic_bp = none →
        (merge_records e n).vitals.diastolic_bp = n.vitals.diastolic_bp))
    ∧ ((∀ v, e.vitals.heart_rate = some v →
        (merge_records e n).vitals.heart_rate = some v)
      ∧ (e.vitals.heart_rate = none →
        (merge_records e n).vitals.heart_rate = n.vitals.heart_rate))
    ∧ ((∀ v, e.vitals.respiratory_rate = some v →
        (merge_records e n).vitals.respiratory_rate = some v)
      ∧ (e.vitals.respiratory_rate = none →
        (merge_records e n).vitals.respiratory_rate = n.vitals.respiratory_rate))
    ∧ ((∀ v, e.vitals.spo2 = some v →
        (merge_records e n).vitals.spo2 = some v)
      ∧ (e.vitals.spo2 = none → (merge_records e n).vitals.spo2 = n.vitals.spo2))
    ∧ ((∀ v, e.vitals.blood_glucose = some v →
        (merge_records e n).vitals.blood_glucose = some v)
      ∧ (e.vitals.blood_glucose = none →
        (merge_records e n).vitals.blood_glucose = n.vitals.blood_glucose))
    ∧ ((∀ v, e.vitals.gcs_total = some v →
        (merge_records e n).vitals.gcs_total = some v)
      ∧ (e.vitals.gcs_total = none →
        (merge_records e n).vitals.gcs_total = n.vitals.gcs_total))
    ∧ ((∀ v, e.situation.chief_complaint = some v →
        (merge_records e n).situation.chief_complaint = some v)
      ∧ (e.situation.chief_complaint = none →
        (merge_records e n).situation.chief_complaint = n.situation.chief_complaint))
    ∧ ((∀ v, e.situation.primary_impression = some v →
        (merge_records e n).situation.primary_impression = some v)
      ∧ (e.situation.primary_impression = none →
        (merge_records e n).situation.primary_impression = n.situation.primary_impression)) := by
  repeat' apply And.intro
  all_goals
    first
      | exact fun v h => mergeScalar_eq_some _ h
      | exact fun h => mergeScalar_eq_new _ h

/-- Existing record of the C1 witness: first name and age known, rest null. -/
def c1Existing : NEMSISRecord :=
  { patient := { patient_name_first := some "John", patient_age := some "45" } }

/-- New record of the C1 witness: a conflicting first name and a fresh last name. -/
def c1New : NEMSISRecord :=
  { patient := { patient_name_first := some "Johnny", patient_name_last := some "Smith" } }

/-- Witness for C1 at concrete records: the existing non-null first name wins
over the conflicting new value, and the null last name is filled from the new
record. -/
theorem merge_scalar_monotone_witness :
    c1Existing.patient.patient_name_first = some "John"
    ∧ (merge_records c1Existing c1New).patient.patient_name_first = some "John"
    ∧ c1Existing.patient.patient_name_last = none
    ∧ (merge_records c1Existing c1New).patient.patient_name_last = some "Smith" := by
  have h := merge_scalar_monotone c1Existing c1New
  exact ⟨rfl, h.1.1 "John" rfl, rfl, (h.2.1.2 rfl).trans rfl⟩

lemma complete_merge_mono (r fresh : NEMSISRecord)
    (h : is_core_info_complete r = true) :
    is_core_info_complete (merge_records r fresh) = true := by
  simp only [is_core_info_complete, merge_records, Bool.and_eq_true, Bool.or_eq_true] at h ⊢
  obtain ⟨⟨⟨hor, haddr⟩, hage⟩, hgen⟩ := h
  refine ⟨⟨⟨?_, mergeScalar_isSome _ haddr⟩, mergeScalar_isSome _ hage⟩,
    mergeScalar_isSome _ hgen⟩
  rcases hor with h1 | h1
  · exact Or.inl (mergeScalar_isSome _ h1)
  · exact Or.inr (mergeScalar_isSome _ h1)

/-- Gate invariant: the ratcheted flag mirrors completeness of the current
record, and the dispatch counter is 1 exactly when the flag is up. -/
def GateInv (s : GateState) : Prop :=
  s.core_info_complete = is_core_info_complete s.record
    ∧ s.dispatches = (if s.core_info_complete then 1 else 0)

lemma gateStep_inv {s : GateState} (fresh : NEMSISRecord) (h : GateInv s) :
    GateInv (gateStep s fresh) := by
  obtain ⟨h1, h2⟩ := h
  cases hc : s.core_info_complete with
  | false =>
    refine ⟨rfl, ?_⟩
    simp [gateStep, h2, hc]
  | true =>
    have hcomp : is_core_info_complete (merge_records s.record fresh) = true :=
      complete_merge_mono _ _ (hc ▸ h1.symm)
    refine ⟨rfl, ?_⟩
    simp [gateStep, h2, hc, hcomp]

lemma gateRun_inv {s : GateState} (l : List NEMSISRecord) (h : GateInv s) :
    GateInv (gateRun s l) := by
  induction l generalizing s with
  | nil => exact h
  | cons a t ih => exact ih (gateStep_inv a h)

lemma gateStep_flag_mono {s : GateState} (fresh : NEMSISRecord) (hinv : GateInv s)
    (h : s.core_info_complete = true) : (gateStep s fresh).core_info_complete = true :=
  complete_merge_mono _ _ (h ▸ hinv.1.symm)

lemma gateRun_flag_mono {s : GateState} (l : List NEMSISRecord) (hinv : GateInv s)
    (h : s.core_info_complete = true) : (gateRun s l).core_info_complete = true := by
  induction l generalizing s with
  | nil => exact h
  | cons a t ih => exact ih (gateStep_inv a hinv) (gateStep_flag_mono a hinv h)

lemma gateRun_append (s : GateState) (l₁ l₂ : List NEMSISRecord) :
    gateRun s (l₁ ++ l₂) = gateRun (gateRun s l₁) l₂ :=
  List.foldl_append _ _ _ _

/-- C2. The flag is a ratchet and the dispatch fires exactly once: over every
sequence of merges from the initial case state, once the flag is up it stays
up under further merges, and the number of downstream-dispatch invocations
equals 1 exactly when the flag is up (so it is invoked once, coincident with
the single false-to-true transition, and never again). -/
theorem gate_fires_exactly_once (l₁ l₂ : List NEMSISRecord) :
    ((gateRun initialGateState l₁).core_info_complete = true →
      (gateRun initialGateState (l₁ ++ l₂)).core_info_complete = true)
    ∧ (gateRun initialGateState (l₁ ++ l₂)).dispatches
        = (if (gateRun initialGateState (l₁ ++ l₂)).core_info_complete then 1 else 0) := by
  have hinv : GateInv initialGateState := ⟨by decide, rfl⟩
  constructor
  · intro h
    rw [gateRun_append]
    exact gateRun_flag_mono l₂ (gateRun_inv l₁ hinv) h
  · exact (gateRun_inv (l₁ ++ l₂) hinv).2

/-- A record carrying all core identifying fields, used by the C2 witness. -/
def c2Complete : NEMSISRecord :=
  { patient :=
      { patient_name_first := some "John"
        patient_address := some "742 Evergreen Terrace"
        patient_age := some "45"
        patient_gender := some "Male" } }

/-- Witness for C2: after one completing merge the flag is up; a further merge
with all fields still present keeps it up and the dispatch count stays at 1. -/
theorem gate_fires_exactly_once_witness :
    (gateRun initialGateState [c2Complete]).core_info_complete = true
    ∧ (gateRun initialGateState ([c2Complete] ++ [c2Complete])).core_info_complete = true
    ∧ (gateRun initialGateState ([c2Complete] ++ [c2Complete])).dispatches = 1 := by
  have h := gate_fires_exactly_once [c2Complete] [c2Complete]
  have h1 : (gateRun initialGateState [c2Complete]).core_info_complete = true := by decide
  refine ⟨h1, h.1 h1, ?_⟩
  rw [h.2, h.1 h1]
  rfl

/-- Existing record of the C3 counterexample, exactly as built by the
repository's test `test_extract_nemsis_with_existing`: name already known. -/
def c3Existing : NEMSISRecord :=
  { patient := { patient_name_first := some "John", patient_name_last := some "Smith" } }

/-- Fresh fallback extraction of the C3 counterexample for the increment
"45 year old male": age and gender recognized, no name (the tests pin this
behaviour of the absent `_dummy_extract`: a name is only extracted after the
keyword "named", see `TestDummyExtract`). -/
def c3Fresh : NEMSISRecord :=
  { patient := { patient_age := some "45", patient_gender := some "Male" } }

/-- Counterexample to C3 as stated: under the fallback backend (no LLM
configured), extract returns the fresh extraction alone, so the existing
non-null first name is not preserved, and the result differs from the merge
of the existing record with the new one. -/
theorem extract_fallback_skips_merge :
    (extract_nemsis false c3Fresh (some c3Existing)).patient.patient_name_first = none
    ∧ (merge_records c3Existing c3Fresh).patient.patient_name_first = some "John"
    ∧ extract_nemsis false c3Fresh (some c3Existing) ≠ merge_records c3Existing c3Fresh := by
  refine ⟨rfl, rfl, ?_⟩
  decide

/-- C3 amended: under the deterministic fallback backend extract returns the
newly extracted record unmerged (existing scalars are not preserved on that
path); the merge with the existing record — which does preserve every non-null
existing scalar — is applied only on the LLM-backed path. -/
theorem extract_backend_merge (fresh existing : NEMSISRecord)
    (oe : Option NEMSISRecord) :
    extract_nemsis false fresh oe = fresh
    ∧ extract_nemsis true fresh (some existing) = merge_records existing fresh
    ∧ (∀ v, existing.patient.patient_name_first = some v →
        (extract_nemsis true fresh (some existing)).patient.patient_name_first = some v) := by
  refine ⟨rfl, rfl, fun v h => ?_⟩
  exact mergeScalar_eq_some _ h

/-- Witness for the amended C3 at concrete records. -/
theorem extract_backend_merge_witness :
    c3Existing.patient.patient_name_first = some "John"
    ∧ (extract_nemsis true c3Fresh (some c3Existing)).patient.patient_name_first
        = some "John" :=
  ⟨rfl, (extract_backend_merge c3Fresh c3Existing (some c3Existing)).2.2 "John" rfl⟩

lemma mergeList_self (l : List String) : mergeList l l = l := by
  have h : (l.filter fun x => decide (x ∉ l)) = [] :=
    List.filter_eq_nil_iff.mpr (by intro a ha; simp [ha])
  simp [mergeList, h]

lemma mergeList_nodup {l1 l2 : List String} (h1 : l1.Nodup) (h2 : l2.Nodup) :
    (mergeList l1 l2).Nodup := by
  refine List.Nodup.append h1 (h2.filter _) ?_
  intro a ha hb
  have := (List.mem_filter.mp hb).2
  simp at this
  exact this ha

/-- C4. List-field merge is union preserving first-seen order: each merged
list field is the existing list followed by exactly those new entries not
already present; under the data-model invariant that list fields are
duplicate-free, the merged lists are duplicate-free; and merging a record
with itself is the identity on its list fields. -/
theorem list_merge_union (e n : NEMSISRecord) :
    (merge_records e n).procedures.procedures
      = e.procedures.procedures
        ++ n.procedures.procedures.filter (fun x => decide (x ∉ e.procedures.procedures))
    ∧ (merge_records e n).medications.medications
      = e.medications.medications
        ++ n.medications.medications.filter
            (fun x => decide (x ∉ e.medications.medications))
    ∧ (e.procedures.procedures.Nodup → n.procedures.procedures.Nodup →
        (merge_records e n).procedures.procedures.Nodup)
    ∧ (e.medications.medications.Nodup → n.medications.medications.Nodup →
        (merge_records e n).medications.medications.Nodup)
    ∧ (merge_records e e).procedures.procedures = e.procedures.procedures
    ∧ (merge_records e e).medications.medications = e.medications.medications :=
  ⟨rfl, rfl, fun h1 h2 => mergeList_nodup h1 h2, fun h1 h2 => mergeList_nodup h1 h2,
    mergeList_self _, mergeList_self _⟩

/-- Existing record of the C4 witness, as in `test_merge_combines_lists`. -/
def c4Existing : NEMSISRecord := { procedures := { procedures := ["12-lead ECG"] } }

/-- New record of the C4 witness: one overlapping and one new procedure. -/
def c4New : NEMSISRecord :=
  { procedures := { procedures := ["12-lead ECG", "IV access"] } }

/-- Witness for C4 at concrete records: the union keeps first-seen order,
has no duplicates, and the self-merge is the identity. -/
theorem list_merge_union_witness :
    (["12-lead ECG"] : List String).Nodup
    ∧ (["12-lead ECG", "IV access"] : List String).Nodup
    ∧ (merge_records c4Existing c4New).procedures.procedures
        = ["12-lead ECG", "IV access"]
    ∧ (merge_records c4Existing c4New).procedures.procedures.Nodup
    ∧ (merge_records c4Existing c4Existing).procedures.procedures = ["12-lead ECG"] := by
  have h := list_merge_union c4Existing c4New
  have h1 : (["12-lead ECG"] : List String).Nodup := by decide
  have h2 : (["12-lead ECG", "IV access"] : List String).Nodup := by decide
  refine ⟨h1, h2, by decide, h.2.2.1 h1 h2, (list_merge_union c4Existing c4Existing).2.2.2.2.1⟩

/-- C5. Completeness predicate: a record is core-info complete exactly when a
first or last name is present, and address, age and gender are present; the
empty record is not complete, and a record missing address, age, or gender is
not complete. -/
theorem core_info_complete_spec :
    (∀ r : NEMSISRecord, is_core_info_complete r = true ↔
      ((r.patient.patient_name_first.isSome = true
          ∨ r.patient.patient_name_last.isSome = true)
        ∧ r.patient.patient_address.isSome = true
        ∧ r.patient.patient_age.isSome = true
        ∧ r.patient.patient_gender.isSome = true))
    ∧ is_core_info_complete emptyRecord = false
    ∧ (∀ r : NEMSISRecord, r.patient.patient_address = none →
        is_core_info_complete r = false)
    ∧ (∀ r : NEMSISRecord, r.patient.patient_age = none →
        is_core_info_complete r = false)
    ∧ (∀ r : NEMSISRecord, r.patient.patient_gender = none →
        is_core_info_complete r = false) := by
  refine ⟨fun r => ?_, by decide, fun r h => ?_, fun r h => ?_, fun r h => ?_⟩
  · simp [is_core_info_complete, Bool.and_eq_true, Bool.or_eq_true, and_assoc]
  · simp [is_core_info_complete, h]
  · simp [is_core_info_complete, h]
  · simp [is_core_info_complete, h]

/-- A record missing only the address, used by the C5 witness. -/
def c5NoAddress : NEMSISRecord :=
  { patient :=
      { patient_name_first := some "John"
        patient_age := some "45"
        patient_gender := some "Male" } }

/-- Witness for C5 at concrete records: a fully identified record is complete,
and the record missing its address is not. -/
theorem core_info_complete_spec_witness :
    is_core_info_complete c2Complete = true
    ∧ c5NoAddress.patient.patient_address = none
    ∧ is_core_info_complete c5NoAddress = false := by
  have h := core_info_complete_spec
  refine ⟨?_, rfl, h.2.2.1 c5NoAddress rfl⟩
  exact (h.1 c2Complete).mpr (by decide)

/-! ## Event bus (`app/services/event_bus.py`)

The bus is embedded with an explicit heap: event dicts live in a store indexed
by references (`Nat`), and subscriber queues hold references, not copies, so
aliasing of the single mutable event object is expressible. Python sets of
queues are modelled as duplicate-free lists of queue identifiers into the
`queues` store; `asyncio.Queue` is a FIFO list of references plus its
`maxsize` (`asyncio` semantics: `maxsize <= 0` means infinite capacity, and
`CaseEventBus.subscribe` / `subscribe_all` construct `asyncio.Queue()` with
the default `maxsize = 0`). -/

/-- A Python dict with string keys and values, as an insertion-ordered
association list (only the `case_id` key is ever written by the bus). -/
abbrev PyDict := List (String × String)

/-- Python `d[k] = v`: overwrite in place if the key is present (position
preserved), else append. On dicts with unique keys this is exactly CPython's
behaviour. -/
def dictSet (d : PyDict) (k v : String) : PyDict :=
  if d.any (fun p => p.1 == k) then d.map (fun p => if p.1 == k then (k, v) else p)
  else d ++ [(k, v)]

/-- Python `d.get(k)`. -/
def dictGet (d : PyDict) (k : String) : Option String :=
  (d.find? (fun p => p.1 == k)).map (fun p => p.2)

/-- An `asyncio.Queue` of event references: bounded iff `maxsize` is positive. -/
structure EvQueue where
  maxsize : Nat := 0
  items : List Nat := []
deriving DecidableEq

/-- Mirrors `asyncio.Queue.full()`: with `maxsize <= 0` the queue is never
full; otherwise it is full when it holds at least `maxsize` items. -/
def EvQueue.isFull (q : EvQueue) : Bool :=
  decide (0 < q.maxsize) && decide (q.maxsize ≤ q.items.length)

/-- A queue has a finite capacity bound exactly when `maxsize` is positive
(`asyncio.Queue` treats `maxsize <= 0` as infinite). -/
def EvQueue.isBounded (q : EvQueue) : Bool :=
  decide (0 < q.maxsize)

/-- Mirrors `queue.put_nowait(event)` under the `except QueueFull` guard of
`CaseEventBus.publish`: a full queue drops the reference (second component
`true` records that a warning is logged), otherwise the reference is appended. -/
def putNowait (q : EvQueue) (ref : Nat) : EvQueue × Bool :=
  if q.isFull then (q, true) else ({ q with items := q.items ++ [ref] }, false)

/-- State of one `CaseEventBus` plus the event-object heap: `_subscribers`
(dict from case id to its set of queues), `_global_subscribers`, the queue
store, the event store, and a count of logged queue-full warnings. -/
structure BusState where
  caseSubs : List (String × List Nat) := []
  globalSubs : List Nat := []
  queues : List EvQueue := []
  events : List PyDict := []
  warnings : Nat := 0
deriving DecidableEq

/-- A freshly constructed `CaseEventBus` with an empty event heap. -/
def emptyBus : BusState := {}

/-- Mirrors `self._subscribers.get(case_id, set())`. -/
def getCaseSubs (s : BusState) (c : String) : List Nat :=
  ((s.caseSubs.find? (fun p => p.1 == c)).map (fun p => p.2)).getD []

/-- Mirrors `CaseEventBus.subscribe_all`: construct a fresh unbounded queue,
add it to the global subscriber set, and return it. -/
def subscribe_all (s : BusState) : BusState × Nat :=
  let qid := s.queues.length
  ({ s with queues := s.queues ++ [{}], globalSubs := s.globalSubs ++ [qid] }, qid)

/-- Mirrors `CaseEventBus.subscribe`: construct a fresh unbounded queue, add
it to the case's subscriber set (creating the set if absent), and return it. -/
def subscribe (s : BusState) (c : String) : BusState × Nat :=
  let qid := s.queues.length
  let caseSubs' :=
    if s.caseSubs.any (fun p => p.1 == c) then
      s.caseSubs.map (fun p => if p.1 == c then (p.1, p.2 ++ [qid]) else p)
    else s.caseSubs ++ [(c, [qid])]
  ({ s with queues := s.queues ++ [{}], caseSubs := caseSubs' }, qid)

/-- One guarded `put_nowait` into the queue named by `qid`, accumulating the
warning count. -/
def deliverTo (acc : List EvQueue × Nat) (qid : Nat) (ref : Nat) : List EvQueue × Nat :=
  match acc.1[qid]? with
  | none => acc
  | some q =>
    let r := putNowait q ref
    (acc.1.set qid r.1, acc.2 + (if r.2 then 1 else 0))

/-- Fan a reference out to a list of queues (one loop of `publish`). -/
def deliver (qs : List EvQueue) (w : Nat) (qids : List Nat) (ref : Nat) :
    List EvQueue × Nat :=
  qids.foldl (fun acc qid => deliverTo acc qid ref) (qs, w)

/-- Mirrors `CaseEventBus.publish`: stamp `event["case_id"] = case_id` on the
event object in place, then enqueue the same reference (non-blocking) into
every case-scoped subscriber queue and every global subscriber queue. -/
def publish (s : BusState) (c : String) (ref : Nat) : BusState :=
  let events' := s.events.set ref (dictSet ((s.events[ref]?).getD []) "case_id" c)
  let r1 := deliver s.queues s.warnings (getCaseSubs s c) ref
  let r2 := deliver r1.1 r1.2 s.globalSubs ref
  { s with events := events', queues := r2.1, warnings := r2.2 }

/-- A sequence of publishes, in order. -/
def publishSeq (s : BusState) (pubs : List (String × Nat)) : BusState :=
  pubs.foldl (fun st p => publish st p.1 p.2) s

lemma find?_map_overwrite (k v : String) :
    ∀ d : PyDict, d.any (fun p => p.1 == k) = true →
      (d.map (fun p => if p.1 == k then (k, v) else p)).find? (fun p => p.1 == k)
        = some (k, v) := by
  intro d
  induction d with
  | nil => intro h; simp at h
  | cons a t ih =>
    intro h
    rw [List.map_cons]
    cases ha : (a.1 == k) with
    | true =>
      rw [if_pos rfl, List.find?_cons_of_pos _ (by simp)]
    | false =>
      have ht : t.any (fun p => p.1 == k) = true := by simpa [ha] using h
      rw [if_neg (by simp), List.find?_cons_of_neg _ (by simp [ha])]
      exact ih ht

lemma dictGet_dictSet (d : PyDict) (k v : String) :
    dictGet (dictSet d k v) k = some v := by
  unfold dictSet
  split
  · rename_i h
    unfold dictGet
    rw [find?_map_overwrite k v d h]
    rfl
  · rename_i h
    have hnone : (d.find? fun p => p.1 == k) = none := by
      rw [List.find?_eq_none]
      intro p hp hpk
      exact h (List.any_eq_true.mpr ⟨p, hp, hpk⟩)
    simp [dictGet, List.find?_append, hnone]

lemma putNowait_not_full {q : EvQueue} {ref : Nat} (h : q.isFull = false) :
    putNowait q ref = ({ q with items := q.items ++ [ref] }, false) := by
  simp [putNowait, h]

lemma putNowait_full {q : EvQueue} {ref : Nat} (h : q.isFull = true) :
    putNowait q ref = (q, true) := by
  simp [putNowait, h]

lemma isFull_unbounded {q : EvQueue} (h : q.maxsize = 0) : q.isFull = false := by
  simp [EvQueue.isFull, h]

lemma deliver_nil (qs : List EvQueue) (w ref : Nat) : deliver qs w [] ref = (qs, w) := rfl

lemma deliver_cons (qs : List EvQueue) (w a ref : Nat) (t : List Nat) :
    deliver qs w (a :: t) ref
      = deliver (deliverTo (qs, w) a ref).1 (deliverTo (qs, w) a ref).2 t ref := rfl

lemma deliverTo_fst_ne {acc : List EvQueue × Nat} {a qid ref : Nat} (h : qid ≠ a) :
    (deliverTo acc a ref).1[qid]? = acc.1[qid]? := by
  unfold deliverTo
  cases hq : acc.1[a]? with
  | none => rfl
  | some q => exact List.getElem?_set_ne (Ne.symm h)

lemma deliverTo_snd_ge (acc : List EvQueue × Nat) (a ref : Nat) :
    acc.2 ≤ (deliverTo acc a ref).2 := by
  unfold deliverTo
  cases hq : acc.1[a]? with
  | none => exact le_refl _
  | some q => exact Nat.le_add_right _ _

lemma deliver_fst_not_mem {qid : Nat} {qids : List Nat} (h : qid ∉ qids) :
    ∀ (qs : List EvQueue) (w ref : Nat), (deliver qs w qids ref).1[qid]? = qs[qid]? := by
  induction qids with
  | nil => intro qs w ref; rfl
  | cons a t ih =>
    intro qs w ref
    have hna : qid ≠ a := fun hq => h (hq ▸ List.mem_cons_self a t)
    have hnt : qid ∉ t := fun hq => h (List.mem_cons_of_mem a hq)
    rw [deliver_cons, ih hnt, deliverTo_fst_ne hna]

lemma deliver_fst_mem {qid : Nat} {qids : List Nat} (hnd : qids.Nodup) (hmem : qid ∈ qids) :
    ∀ (qs : List EvQueue) (w ref : Nat) (q : EvQueue), qs[qid]? = some q →
      (deliver qs w qids ref).1[qid]? = some (putNowait q ref).1 := by
  induction qids with
  | nil => exact absurd hmem (List.not_mem_nil qid)
  | cons a t ih =>
    intro qs w ref q hq
    rw [deliver_cons]
    rcases List.mem_cons.mp hmem with heq | hmemt
    · subst heq
      have hlt : qid < qs.length := (List.getElem?_eq_some.mp hq).1
      have hTo : deliverTo (qs, w) qid ref
          = (qs.set qid (putNowait q ref).1,
             w + (if (putNowait q ref).2 then 1 else 0)) := by
        simp [deliverTo, hq]
      rw [hTo, deliver_fst_not_mem (List.nodup_cons.mp hnd).1]
      exact List.getElem?_set_self hlt
    · have hne : qid ≠ a := by
        rintro rfl
        exact (List.nodup_cons.mp hnd).1 hmemt
      have h1 : (deliverTo (qs, w) a ref).1[qid]? = some q := by
        rw [deliverTo_fst_ne hne]; exact hq
      exact ih (List.nodup_cons.mp hnd).2 hmemt _ _ _ _ h1

lemma deliver_snd_ge (qids : List Nat) :
    ∀ (qs : List EvQueue) (w ref : Nat), w ≤ (deliver qs w qids ref).2 := by
  induction qids with
  | nil => intro qs w ref; exact le_refl _
  | cons a t ih =>
    intro qs w ref
    rw [deliver_cons]
    exact le_trans (deliverTo_snd_ge (qs, w) a ref) (ih _ _ _)

lemma deliverTo_snd_full {acc : List EvQueue × Nat} {a ref : Nat} {q : EvQueue}
    (hq : acc.1[a]? = some q) (hf : q.isFull = true) :
    (deliverTo acc a ref).2 = acc.2 + 1 := by
  simp [deliverTo, hq, putNowait, hf]

lemma deliver_snd_full {qid : Nat} {qids : List Nat} (hnd : qids.Nodup) (hmem : qid ∈ qids) :
    ∀ (qs : List EvQueue) (w ref : Nat) (q : EvQueue), qs[qid]? = some q → q.isFull = true →
      w + 1 ≤ (deliver qs w qids ref).2 := by
  induction qids with
  | nil => exact absurd hmem (List.not_mem_nil qid)
  | cons a t ih =>
    intro qs w ref q hq hf
    rw [deliver_cons]
    rcases List.mem_cons.mp hmem with heq | hmemt
    · subst heq
      have h2 : (deliverTo (qs, w) qid ref).2 = w + 1 := deliverTo_snd_full hq hf
      rw [h2] at *
      exact h2 ▸ deliver_snd_ge t _ _ _
    · have hne : qid ≠ a := by
        rintro rfl
        exact (List.nodup_cons.mp hnd).1 hmemt
      have h1 : (deliverTo (qs, w) a ref).1[qid]? = some q := by
        rw [deliverTo_fst_ne hne]; exact hq
      have h2 := ih (List.nodup_cons.mp hnd).2 hmemt
        (deliverTo (qs, w) a ref).1 (deliverTo (qs, w) a ref).2 ref q h1 hf
      exact le_trans (Nat.add_le_add_right (deliverTo_snd_ge (qs, w) a ref) 1) h2

lemma publish_queues (s : BusState) (c : String) (ref : Nat) :
    (publish s c ref).queues
      = (deliver (deliver s.queues s.warnings (getCaseSubs s c) ref).1
          (deliver s.queues s.warnings (getCaseSubs s c) ref).2 s.globalSubs ref).1 := rfl

lemma publish_warnings (s : BusState) (c : String) (ref : Nat) :
    (publish s c ref).warnings
      = (deliver (deliver s.queues s.warnings (getCaseSubs s c) ref).1
          (deliver s.queues s.warnings (getCaseSubs s c) ref).2 s.globalSubs ref).2 := rfl

lemma publish_events (s : BusState) (c : String) (ref : Nat) :
    (publish s c ref).events
      = s.events.set ref (dictSet ((s.events[ref]?).getD []) "case_id" c) := rfl

lemma getCaseSubs_publish (s : BusState) (c : String) (ref : Nat) (d : String) :
    getCaseSubs (publish s c ref) d = getCaseSubs s d := rfl

lemma globalSubs_publish (s : BusState) (c : String) (ref : Nat) :
    (publish s c ref).globalSubs = s.globalSubs := rfl

lemma publish_get_case {s : BusState} {c : String} {ref qid : Nat} {q : EvQueue}
    (hmem : qid ∈ getCaseSubs s c) (hnd : (getCaseSubs s c).Nodup)
    (hng : qid ∉ s.globalSubs) (hq : s.queues[qid]? = some q) :
    (publish s c ref).queues[qid]? = some (putNowait q ref).1 := by
  rw [publish_queues, deliver_fst_not_mem hng]
  exact deliver_fst_mem hnd hmem _ _ _ _ hq

lemma publish_get_global {s : BusState} {c : String} {ref qid : Nat} {q : EvQueue}
    (hmem : qid ∈ s.globalSubs) (hnd : s.globalSubs.Nodup)
    (hnc : qid ∉ getCaseSubs s c) (hq : s.queues[qid]? = some q) :
    (publish s c ref).queues[qid]? = some (putNowait q ref).1 := by
  rw [publish_queues]
  have h1 : (deliver s.queues s.warnings (getCaseSubs s c) ref).1[qid]? = some q := by
    rw [deliver_fst_not_mem hnc]; exact hq
  exact deliver_fst_mem hnd hmem _ _ _ _ h1

lemma publish_get_none {s : BusState} {c : String} {ref qid : Nat}
    (h1 : qid ∉ getCaseSubs s c) (h2 : qid ∉ s.globalSubs) :
    (publish s c ref).queues[qid]? = s.queues[qid]? := by
  rw [publish_queues, deliver_fst_not_mem h2, deliver_fst_not_mem h1]

lemma publish_warn_full {s : BusState} {c : String} {ref qid : Nat} {q : EvQueue}
    (hmem : qid ∈ getCaseSubs s c) (hnd : (getCaseSubs s c).Nodup)
    (hq : s.queues[qid]? = some q) (hf : q.isFull = true) :
    s.warnings + 1 ≤ (publish s c ref).warnings := by
  rw [publish_warnings]
  exact le_trans (deliver_snd_full hnd hmem _ _ ref _ hq hf) (deliver_snd_ge _ _ _ _)

lemma publish_stamp (st : BusState) (d : String) (r : Nat) (h : r < st.events.length) :
    dictGet (((publish st d r).events[r]?).getD []) "case_id" = some d := by
  rw [publish_events, List.getElem?_set_self h]
  exact dictGet_dictSet _ _ _

lemma publishSeq_cons (s : BusState) (p : String × Nat) (rest : List (String × Nat)) :
    publishSeq s (p :: rest) = publishSeq (publish s p.1 p.2) rest := rfl

lemma publishSeq_fifo_aux :
    ∀ (pubs : List (String × Nat)) (s : BusState) (Qc Qg Qo : EvQueue)
      (c c₂ : String) (qc qg qo : Nat),
      (∀ d, (getCaseSubs s d).Nodup) → s.globalSubs.Nodup →
      qc ∈ getCaseSubs s c → (∀ d, d ≠ c → qc ∉ getCaseSubs s d) → qc ∉ s.globalSubs →
      qg ∈ s.globalSubs → (∀ d, qg ∉ getCaseSubs s d) →
      qo ∈ getCaseSubs s c₂ → c₂ ≠ c → (∀ d, d ≠ c₂ → qo ∉ getCaseSubs s d) →
      qo ∉ s.globalSubs →
      s.queues[qc]? = some Qc → Qc.maxsize = 0 →
      s.queues[qg]? = some Qg → Qg.maxsize = 0 →
      s.queues[qo]? = some Qo →
      (∀ p ∈ pubs, p.1 ≠ c₂) →
      (publishSeq s pubs).queues[qc]?
          = some { Qc with
              items := Qc.items ++ (pubs.filter (fun p => p.1 == c)).map (fun p => p.2) }
        ∧ (publishSeq s pubs).queues[qg]?
            = some { Qg with items := Qg.items ++ pubs.map (fun p => p.2) }
        ∧ (publishSeq s pubs).queues[qo]? = some Qo := by
  intro pubs
  induction pubs with
  | nil =>
    intro s Qc Qg Qo c c₂ qc qg qo _ _ _ _ _ _ _ _ _ _ _ hQc _ hQg _ hQo _
    refine ⟨?_, ?_, hQo⟩
    · simpa using hQc
    · simpa using hQg
  | cons p rest ih =>
    intro s Qc Qg Qo c c₂ qc qg qo hnd hgnd hqc hqcO hqcg hqg hqgc hqo hc₂ hqoO hqog
      hQc hQcU hQg hQgU hQo hne
    have hne_head : p.1 ≠ c₂ := hne p (List.mem_cons_self p rest)
    have hne_rest : ∀ x ∈ rest, x.1 ≠ c₂ := fun x hx => hne x (List.mem_cons_of_mem p hx)
    have hQo' : (publish s p.1 p.2).queues[qo]? = some Qo :=
      (publish_get_none (hqoO p.1 hne_head) hqog).trans hQo
    have hQg' : (publish s p.1 p.2).queues[qg]?
        = some { Qg with items := Qg.items ++ [p.2] } := by
      rw [publish_get_global hqg hgnd (hqgc p.1) hQg,
        putNowait_not_full (isFull_unbounded hQgU)]
    by_cases hpc : p.1 = c
    · have hQc' : (publish s p.1 p.2).queues[qc]?
          = some { Qc with items := Qc.items ++ [p.2] } := by
        have hm : qc ∈ getCaseSubs s p.1 := by rw [hpc]; exact hqc
        rw [publish_get_case hm (hnd p.1) hqcg hQc,
          putNowait_not_full (isFull_unbounded hQcU)]
      obtain ⟨r1, r2, r3⟩ := ih (publish s p.1 p.2)
        { Qc with items := Qc.items ++ [p.2] } { Qg with items := Qg.items ++ [p.2] } Qo
        c c₂ qc qg qo hnd hgnd hqc hqcO hqcg hqg hqgc hqo hc₂ hqoO hqog
        hQc' hQcU hQg' hQgU hQo' hne_rest
      rw [publishSeq_cons]
      refine ⟨?_, ?_, r3⟩
      · rw [r1]
        have hb : (p.1 == c) = true := by simp [hpc]
        simp [List.filter_cons, hb]
      · rw [r2]
        simp
    · have hQc' : (publish s p.1 p.2).queues[qc]? = some Qc :=
        (publish_get_none (hqcO p.1 hpc) hqcg).trans hQc
      obtain ⟨r1, r2, r3⟩ := ih (publish s p.1 p.2)
        Qc { Qg with items := Qg.items ++ [p.2] } Qo
        c c₂ qc qg qo hnd hgnd hqc hqcO hqcg hqg hqgc hqo hc₂ hqoO hqog
        hQc' hQcU hQg' hQgU hQo' hne_rest
      rw [publishSeq_cons]
      refine ⟨?_, ?_, r3⟩
      · rw [r1]
        have hb : (p.1 == c) = false := by simp [hpc]
        simp [List.filter_cons, hb]
      · rw [r2]
        simp

/-- C6. Event-bus fan-out, stamping, and per-queue FIFO order: publishing a
sequence of events delivers, to a queue subscribed to case `c`, exactly the
events published to `c` in publish order; to a global queue, every published
event in publish order; and nothing to a queue subscribed only to a different
case; and each single publish stamps the delivered event object's `case_id`
with the target case id. -/
theorem eventbus_fanout_fifo
    (s : BusState) (Qc Qg Qo : EvQueue) (c c₂ : String) (qc qg qo : Nat)
    (pubs : List (String × Nat))
    (hnd : ∀ d, (getCaseSubs s d).Nodup) (hgnd : s.globalSubs.Nodup)
    (hqc : qc ∈ getCaseSubs s c) (hqcO : ∀ d, d ≠ c → qc ∉ getCaseSubs s d)
    (hqcg : qc ∉ s.globalSubs)
    (hqg : qg ∈ s.globalSubs) (hqgc : ∀ d, qg ∉ getCaseSubs s d)
    (hqo : qo ∈ getCaseSubs s c₂) (hc₂ : c₂ ≠ c)
    (hqoO : ∀ d, d ≠ c₂ → qo ∉ getCaseSubs s d) (hqog : qo ∉ s.globalSubs)
    (hQc : s.queues[qc]? = some Qc) (hQcU : Qc.maxsize = 0)
    (hQg : s.queues[qg]? = some Qg) (hQgU : Qg.maxsize = 0)
    (hQo : s.queues[qo]? = some Qo)
    (hne : ∀ p ∈ pubs, p.1 ≠ c₂) :
    (publishSeq s pubs).queues[qc]?
        = some { Qc with
            items := Qc.items ++ (pubs.filter (fun p => p.1 == c)).map (fun p => p.2) }
      ∧ (publishSeq s pubs).queues[qg]?
          = some { Qg with items := Qg.items ++ pubs.map (fun p => p.2) }
      ∧ (publishSeq s pubs).queues[qo]? = some Qo
      ∧ (∀ (st : BusState) (d : String) (r : Nat), r < st.events.length →
          dictGet (((publish st d r).events[r]?).getD []) "case_id" = some d) := by
  obtain ⟨r1, r2, r3⟩ := publishSeq_fifo_aux pubs s Qc Qg Qo c c₂ qc qg qo
    hnd hgnd hqc hqcO hqcg hqg hqgc hqo hc₂ hqoO hqog hQc hQcU hQg hQgU hQo hne
  exact ⟨r1, r2, r3, publish_stamp⟩

/-- Seed heap for the C6 witness: two event objects, no subscribers yet. -/
def c6Seed : BusState := { events := [[("type", "x")], [("type", "y")]] }

/-- C6 witness bus after `subscribe("c1")`, `subscribe_all()`, `subscribe("c2")`:
queue 0 is case-c1 scoped, queue 1 global, queue 2 case-c2 scoped. -/
def c6S3 : BusState := (subscribe (subscribe_all ((subscribe c6Seed "c1").1)).1 "c2").1

lemma c6S3_caseSubs : c6S3.caseSubs = [("c1", [0]), ("c2", [2])] := rfl

lemma c6S3_elsewhere (d : String) (h1 : d ≠ "c1") (h2 : d ≠ "c2") :
    getCaseSubs c6S3 d = [] := by
  have hf : List.find? (fun p => p.1 == d)
      ([("c1", [0]), ("c2", [2])] : List (String × List Nat)) = none := by
    rw [List.find?_cons_of_neg _ (by simpa using fun hcon => h1 hcon.symm),
      List.find?_cons_of_neg _ (by simpa using fun hcon => h2 hcon.symm)]
    rfl
  simp [getCaseSubs, c6S3_caseSubs, hf]

/-- Witness for C6 at a concrete scenario: two events published to case c1
arrive, in publish order, in the c1 queue and the global queue; the c2 queue
receives nothing; the delivered event is stamped with the case id. -/
theorem eventbus_fanout_fifo_witness :
    (publishSeq c6S3 [("c1", 0), ("c1", 1)]).queues[0]?
        = some { maxsize := 0, items := [0, 1] }
    ∧ (publishSeq c6S3 [("c1", 0), ("c1", 1)]).queues[1]?
        = some { maxsize := 0, items := [0, 1] }
    ∧ (publishSeq c6S3 [("c1", 0), ("c1", 1)]).queues[2]?
        = some { maxsize := 0, items := [] }
    ∧ dictGet (((publish c6S3 "c1" 0).events[0]?).getD []) "case_id" = some "c1" := by
  have hnd : ∀ d, (getCaseSubs c6S3 d).Nodup := by
    intro d
    by_cases h1 : d = "c1"
    · subst h1; decide
    by_cases h2 : d = "c2"
    · subst h2; decide
    · rw [c6S3_elsewhere d h1 h2]; exact List.nodup_nil
  have hqcO : ∀ d, d ≠ "c1" → 0 ∉ getCaseSubs c6S3 d := by
    intro d h1
    by_cases h2 : d = "c2"
    · subst h2; decide
    · rw [c6S3_elsewhere d h1 h2]; exact List.not_mem_nil 0
  have hqgc : ∀ d, 1 ∉ getCaseSubs c6S3 d := by
    intro d
    by_cases h1 : d = "c1"
    · subst h1; decide
    by_cases h2 : d = "c2"
    · subst h2; decide
    · rw [c6S3_elsewhere d h1 h2]; exact List.not_mem_nil 1
  have hqoO : ∀ d, d ≠ "c2" → 2 ∉ getCaseSubs c6S3 d := by
    intro d h2
    by_cases h1 : d = "c1"
    · subst h1; decide
    · rw [c6S3_elsewhere d h1 h2]; exact List.not_mem_nil 2
  have hne : ∀ p ∈ ([("c1", 0), ("c1", 1)] : List (String × Nat)), p.1 ≠ "c2" := by
    intro p hp
    rcases List.mem_cons.mp hp with rfl | hp2
    · decide
    rcases List.mem_cons.mp hp2 with rfl | hp3
    · decide
    · exact absurd hp3 (List.not_mem_nil p)
  have h := eventbus_fanout_fifo c6S3 {} {} {} "c1" "c2" 0 1 2 [("c1", 0), ("c1", 1)]
    hnd (by decide) (by decide) hqcO (by decide) (by decide) hqgc
    (by decide) (by decide) hqoO (by decide)
    (by decide) rfl (by decide) rfl (by decide) hne
  exact ⟨h.1, h.2.1, h.2.2.1, h.2.2.2 c6S3 "c1" 0 (by decide)⟩

/-- Counterexample to C7 as stated: the queues handed out by `subscribe` and
`subscribe_all` are constructed as `asyncio.Queue()` with the default
`maxsize = 0`, which asyncio treats as infinite capacity — they are not
bounded per-subscriber queues. -/
theorem subscribe_queue_unbounded :
    ((subscribe_all emptyBus).1.queues[(subscribe_all emptyBus).2]?
        = some { maxsize := 0, items := [] })
    ∧ ((subscribe emptyBus "c1").1.queues[(subscribe emptyBus "c1").2]?
        = some { maxsize := 0, items := [] })
    ∧ EvQueue.isBounded { maxsize := 0, items := [] } = false := by
  refine ⟨?_, ?_, rfl⟩ <;> rfl

/-- C7 amended: `subscribe` and `subscribe_all` return unbounded queues
(default `maxsize = 0`, never full); nevertheless every enqueue in `publish`
is guarded, so publishing into a full subscriber queue (possible only for a
bounded queue) neither raises nor blocks — the event is dropped for that
subscriber only, a warning is recorded, and every other matching subscriber
still receives the event. -/
theorem queue_saturation_amended
    (s : BusState) (c : String) (ref qF qO : Nat) (QF QO : EvQueue)
    (hndc : (getCaseSubs s c).Nodup)
    (hF : qF ∈ getCaseSubs s c) (hFg : qF ∉ s.globalSubs)
    (hQF : s.queues[qF]? = some QF) (hfull : QF.isFull = true)
    (hO : qO ∈ getCaseSubs s c) (hOg : qO ∉ s.globalSubs)
    (hQO : s.queues[qO]? = some QO) (hnotfull : QO.isFull = false) :
    ((subscribe_all s).1.queues[(subscribe_all s).2]? = some { maxsize := 0, items := [] })
    ∧ ((subscribe s c).1.queues[(subscribe s c).2]? = some { maxsize := 0, items := [] })
    ∧ (∀ q : EvQueue, q.maxsize = 0 → q.isFull = false)
    ∧ (publish s c ref).queues[qF]? = some QF
    ∧ s.warnings + 1 ≤ (publish s c ref).warnings
    ∧ (publish s c ref).queues[qO]? = some { QO with items := QO.items ++ [ref] } := by
  refine ⟨List.getElem?_concat_length _ _, List.getElem?_concat_length _ _,
    fun q hq => isFull_unbounded hq, ?_, ?_, ?_⟩
  · exact (publish_get_case hF hndc hFg hQF).trans (by rw [putNowait_full hfull])
  · exact publish_warn_full hF hndc hQF hfull
  · exact (publish_get_case hO hndc hOg hQO).trans (by rw [putNowait_not_full hnotfull])

/-- A bus whose case-c1 subscriber 0 is an externally-bounded full queue and
subscriber 1 is a fresh unbounded queue, for the C7 witness. -/
def c7State : BusState :=
  { caseSubs := [("c1", [0, 1])]
    globalSubs := []
    queues := [{ maxsize := 1, items := [5] }, {}]
    events := [[("type", "x")]]
    warnings := 0 }

/-- Witness for the amended C7 at a concrete state: the full queue drops the
event and stays unchanged, a warning is counted, and the other subscriber
still receives the event. -/
theorem queue_saturation_amended_witness :
    (getCaseSubs c7State "c1").Nodup
    ∧ ({ maxsize := 1, items := [5] } : EvQueue).isFull = true
    ∧ (publish c7State "c1" 0).queues[0]? = some { maxsize := 1, items := [5] }
    ∧ c7State.warnings + 1 ≤ (publish c7State "c1" 0).warnings
    ∧ (publish c7State "c1" 0).queues[1]? = some { maxsize := 0, items := [0] } := by
  have h := queue_saturation_amended c7State "c1" 0 0 1
    { maxsize := 1, items := [5] } {}
    (by decide) (by decide) (by decide) (by decide) (by decide)
    (by decide) (by decide) (by decide) (by decide)
  exact ⟨by decide, by decide, h.2.2.2.1, h.2.2.2.2.1, h.2.2.2.2.2⟩

/-- C10. Publish mutates the caller's event object in place — its `case_id`
entry is set to the target case id, overwriting any value it already carried
(the stamped read yields the new case id unconditionally) — and enqueues the
same single reference (not a copy) into every matching case-scoped and global
queue, so the caller's object and every delivered event alias one shared
mutable heap object; no other event object is touched. -/
theorem publish_stamps_shared_object
    (s : BusState) (c : String) (ref : Nat) (hlen : ref < s.events.length) :
    ((publish s c ref).events[ref]?
        = some (dictSet ((s.events[ref]?).getD []) "case_id" c))
    ∧ dictGet (((publish s c ref).events[ref]?).getD []) "case_id" = some c
    ∧ (∀ j, j ≠ ref → (publish s c ref).events[j]? = s.events[j]?)
    ∧ (∀ qid q, qid ∈ getCaseSubs s c → (getCaseSubs s c).Nodup →
        qid ∉ s.globalSubs → s.queues[qid]? = some q → q.isFull = false →
        (publish s c ref).queues[qid]? = some { q with items := q.items ++ [ref] })
    ∧ (∀ qid q, qid ∈ s.globalSubs → s.globalSubs.Nodup →
        qid ∉ getCaseSubs s c → s.queues[qid]? = some q → q.isFull = false →
        (publish s c ref).queues[qid]? = some { q with items := q.items ++ [ref] }) := by
  refine ⟨?_, publish_stamp s c ref hlen, fun j hj => ?_,
    fun qid q h1 h2 h3 h4 h5 => ?_, fun qid q h1 h2 h3 h4 h5 => ?_⟩
  · rw [publish_events]
    exact List.getElem?_set_self hlen
  · rw [publish_events]
    exact List.getElem?_set_ne (Ne.symm hj)
  · exact (publish_get_case h1 h2 h3 h4).trans (by rw [putNowait_not_full h5])
  · exact (publish_get_global h1 h2 h3 h4).trans (by rw [putNowait_not_full h5])

/-- A bus whose one event object already carries a stale `case_id`, with one
case-scoped and one global subscriber, for the C10 witness. -/
def c10State : BusState :=
  { caseSubs := [("c1", [0])]
    globalSubs := [1]
    queues := [{}, {}]
    events := [[("case_id", "old"), ("type", "x")]]
    warnings := 0 }

/-- Witness for C10 at a concrete state: the stale `case_id` is overwritten
and both subscribers receive the same reference. -/
theorem publish_stamps_shared_object_witness :
    dictGet ((c10State.events[0]?).getD []) "case_id" = some "old"
    ∧ dictGet (((publish c10State "c1" 0).events[0]?).getD []) "case_id" = some "c1"
    ∧ (publish c10State "c1" 0).queues[0]? = some { maxsize := 0, items := [0] }
    ∧ (publish c10State "c1" 0).queues[1]? = some { maxsize := 0, items := [0] } := by
  have h := publish_stamps_shared_object c10State "c1" 0 (by decide)
  refine ⟨by decide, h.2.1, ?_, ?_⟩
  · exact h.2.2.2.1 0 {} (by decide) (by decide) (by decide) (by decide) (by decide)
  · exact h.2.2.2.2 1 {} (by decide) (by decide) (by decide) (by decide) (by decide)

/-! ## Committed-transcript normalization (`app/services/transcription.py`)

The listener loop `_listen_elevenlabs` dispatches on each frame's
`message_type`; for committed transcripts it strips the text, removes every
`"00:00:00,000"` timing/silence placeholder (re-stripping after each
replacement pass), collapses whitespace with `" ".join(text.split())`, and
invokes `on_committed` only when the result is non-empty. Strings are embedded
as their character lists; the loops are structural on explicit fuel, with the
top-level entry points supplying fuel adequate for the input (each
replacement pass shortens the text, so `length` bounds the iteration count). -/

/-- Python `str` whitespace, ASCII range, as used by `str.strip()` and
`str.split()` (the transcripts handled here are ASCII text). -/
def isPySpace (c : Char) : Bool :=
  c = ' ' || c = '\t' || c = '\n' || c = '\r' || c = Char.ofNat 11 || c = Char.ofNat 12

/-- Python `str.strip()` on a character list. -/
def pyStrip (l : List Char) : List Char :=
  ((l.dropWhile isPySpace).reverse.dropWhile isPySpace).reverse

/-- The timing/silence placeholder token the listener removes. -/
def placeholder : List Char := "00:00:00,000".data

/-- Python substring test (`"00:00:00,000" in text`). -/
def containsTok (p : List Char) : List Char → Bool
  | [] => p.isEmpty
  | a :: t => p.isPrefixOf (a :: t) || containsTok p t

/-- Python `text.replace("00:00:00,000", "")`: remove every left-to-right
non-overlapping occurrence of the placeholder. -/
def removePhFuel : Nat → List Char → List Char
  | 0, l => l
  | _ + 1, [] => []
  | fuel + 1, a :: l =>
    if placeholder.isPrefixOf (a :: l) then
      removePhFuel fuel ((a :: l).drop placeholder.length)
    else a :: removePhFuel fuel l

/-- The replacement with adequate fuel. -/
def removePh (l : List Char) : List Char := removePhFuel l.length l

/-- The listener's placeholder-removal loop:
`while "00:00:00,000" in text: text = text.replace("00:00:00,000", "").strip()`. -/
def removeLoopFuel : Nat → List Char → List Char
  | 0, l => l
  | fuel + 1, l =>
    if containsTok placeholder l then removeLoopFuel fuel (pyStrip (removePh l)) else l

/-- The loop with adequate fuel. -/
def removeLoop (l : List Char) : List Char := removeLoopFuel l.length l

/-- Python `str.split()`: the maximal runs of non-whitespace characters. -/
def pyWordsFuel : Nat → List Char → List (List Char)
  | 0, _ => []
  | fuel + 1, l =>
    match l.dropWhile isPySpace with
    | [] => []
    | c :: rest =>
      (c :: rest.takeWhile (fun ch => !isPySpace ch))
        :: pyWordsFuel fuel (rest.dropWhile (fun ch => !isPySpace ch))

/-- The splitter with adequate fuel. -/
def pyWords (l : List Char) : List (List Char) := pyWordsFuel l.length l

/-- Python `" ".join(ws)`. -/
def spaceJoin : List (List Char) → List Char
  | [] => []
  | [w] => w
  | w :: w2 :: ws => w ++ ' ' :: spaceJoin (w2 :: ws)

/-- The committed-transcript normalization of `_listen_elevenlabs`
(`app/services/transcription.py` lines 90-95): strip, remove all placeholder
tokens, then `" ".join(text.split()) if text else ""`. -/
def normalizeCommitted (s : String) : String :=
  let u := removeLoop (pyStrip s.data)
  ⟨if u = [] then [] else spaceJoin (pyWords u)⟩

/-- One inbound ElevenLabs frame, as dispatched on `message_type` by the
listener; the committed constructor also covers the
`committed_transcript_with_timestamps` message type, which the source handles
identically. The optional text models `data.get("text")`. -/
inductive Frame where
  | partialTranscript (text : Option String)
  | committedTranscript (text : Option String)
  | sessionStarted (sid : String)
  | errorFrame
deriving DecidableEq

/-- The externally visible effect of one frame on the session callbacks. -/
inductive ListenAction where
  | partialCb (text : String)
  | committedCb (text : String)
  | logged
deriving DecidableEq

/-- The per-frame dispatch of `_listen_elevenlabs`: partial frames invoke
`on_partial` with the stripped text; committed frames normalize and invoke
`on_committed` exactly when the normalized text is non-empty; session and
error frames are only logged. -/
def handleFrame : Frame → ListenAction
  | Frame.partialTranscript t => ListenAction.partialCb ⟨pyStrip (t.getD "").data⟩
  | Frame.committedTranscript t =>
    let n := normalizeCommitted (t.getD "")
    if n = "" then ListenAction.logged else ListenAction.committedCb n
  | Frame.sessionStarted _ => ListenAction.logged
  | Frame.errorFrame => ListenAction.logged

lemma removePhFuel_length_le : ∀ (f : Nat) (l : List Char),
    (removePhFuel f l).length ≤ l.length := by
  intro f
  induction f with
  | zero => intro l; exact le_refl _
  | succ f ih =>
    intro l
    cases l with
    | nil => exact le_refl _
    | cons a t =>
      by_cases hp : placeholder.isPrefixOf (a :: t)
      · rw [removePhFuel, if_pos hp]
        exact le_trans (ih _) (List.length_drop _ _ ▸ Nat.sub_le _ _)
      · rw [removePhFuel, if_neg hp]
        exact Nat.succ_le_succ (ih t)

lemma containsTok_iff (p : List Char) : ∀ l, containsTok p l = true ↔ p <:+: l := by
  intro l
  induction l with
  | nil => simp [containsTok, List.isEmpty_iff, List.infix_nil]
  | cons a t ih =>
    rw [containsTok, Bool.or_eq_true, List.isPrefixOf_iff_prefix, ih,
      List.infix_cons_iff]

lemma placeholder_ne_nil : placeholder ≠ [] := by decide

lemma removePhFuel_length_lt : ∀ (f : Nat) (l : List Char), l.length ≤ f →
    containsTok placeholder l = true → (removePhFuel f l).length < l.length := by
  intro f
  induction f with
  | zero =>
    intro l hl hc
    rw [List.length_eq_zero.mp (Nat.le_zero.mp hl)] at hc
    exact absurd hc (by decide)
  | succ f ih =>
    intro l hl hc
    cases l with
    | nil => exact absurd hc (by decide)
    | cons a t =>
      by_cases hp : placeholder.isPrefixOf (a :: t)
      · rw [removePhFuel, if_pos hp]
        have hple : placeholder.length ≤ (a :: t).length :=
          (List.isPrefixOf_iff_prefix.mp hp).length_le
        calc (removePhFuel f ((a :: t).drop placeholder.length)).length
            ≤ ((a :: t).drop placeholder.length).length := removePhFuel_length_le _ _
          _ = (a :: t).length - placeholder.length := List.length_drop _ _
          _ < (a :: t).length := by
              have h1 : 0 < placeholder.length := by decide
              have h2 : 0 < (a :: t).length := by simp
              omega
      · rw [removePhFuel, if_neg hp]
        have hct : containsTok placeholder t = true := by
          rw [containsTok, Bool.or_eq_true] at hc
          rcases hc with hc | hc
          · exact absurd hc hp
          · exact hc
        have hlt : t.length ≤ f := by
          simpa using Nat.succ_le_succ_iff.mp hl
        simpa using Nat.succ_lt_succ (ih t hlt hct)

lemma pyStrip_length_le (l : List Char) : (pyStrip l).length ≤ l.length := by
  unfold pyStrip
  rw [List.length_reverse]
  calc ((l.dropWhile isPySpace).reverse.dropWhile isPySpace).length
      ≤ (l.dropWhile isPySpace).reverse.length :=
        (List.dropWhile_suffix _).length_le
    _ = (l.dropWhile isPySpace).length := List.length_reverse _
    _ ≤ l.length := (List.dropWhile_suffix _).length_le

lemma removeLoopFuel_not_contains : ∀ (f : Nat) (l : List Char), l.length ≤ f →
    containsTok placeholder (removeLoopFuel f l) = false := by
  intro f
  induction f with
  | zero =>
    intro l hl
    rw [List.length_eq_zero.mp (Nat.le_zero.mp hl)]
    decide
  | succ f ih =>
    intro l hl
    cases hc : containsTok placeholder l with
    | false => rw [removeLoopFuel, if_neg (by simp [hc])]; exact hc
    | true =>
      rw [removeLoopFuel, if_pos hc]
      refine ih _ ?_
      have h1 : (pyStrip (removePh l)).length ≤ (removePh l).length :=
        pyStrip_length_le _
      have h2 : (removePh l).length < l.length :=
        removePhFuel_length_lt l.length l (le_refl _) hc
      omega

lemma removeLoop_not_contains (l : List Char) :
    containsTok placeholder (removeLoop l) = false :=
  removeLoopFuel_not_contains l.length l (le_refl _)

lemma noSpace_prefix_split : ∀ (p : List Char), ' ' ∉ p →
    ∀ (a v b : List Char), p ++ v = a ++ ' ' :: b → p <+: a := by
  intro p
  induction p with
  | nil => intro _ a v b _; exact List.nil_prefix
  | cons c p' ihp =>
    intro hp a v b h
    cases a with
    | nil =>
      rw [List.cons_append, List.nil_append] at h
      injection h with h1 h2
      exact absurd (h1 ▸ List.mem_cons_self c p') hp
    | cons d a' =>
      rw [List.cons_append, List.cons_append] at h
      injection h with h1 h2
      rw [List.cons_prefix_cons]
      exact ⟨h1, ihp (fun hm => hp (List.mem_cons_of_mem _ hm)) a' v b h2⟩

lemma noSpace_infix_split : ∀ (u : List Char) (p : List Char), ' ' ∉ p →
    ∀ (a v b : List Char), u ++ p ++ v = a ++ ' ' :: b → p <:+: a ∨ p <:+: b := by
  intro u
  induction u with
  | nil =>
    intro p hp a v b h
    rw [List.nil_append] at h
    exact Or.inl (noSpace_prefix_split p hp a v b h).isInfix
  | cons x u' ihu =>
    intro p hp a v b h
    cases a with
    | nil =>
      rw [List.cons_append, List.cons_append, List.nil_append] at h
      injection h with h1 h2
      exact Or.inr ⟨u', v, by simpa using h2⟩
    | cons d a' =>
      rw [List.cons_append, List.cons_append, List.cons_append] at h
      injection h with h1 h2
      rcases ihu p hp a' v b (by simpa using h2) with hres | hres
      · exact Or.inl (List.infix_cons hres)
      · exact Or.inr hres

lemma noSpace_infix_spaceJoin {p : List Char} (hne : p ≠ []) (hp : ' ' ∉ p) :
    ∀ ws, p <:+: spaceJoin ws → ∃ w ∈ ws, p <:+: w := by
  intro ws
  induction ws with
  | nil =>
    intro h
    exact absurd (List.infix_nil.mp h) hne
  | cons w ws' ih =>
    cases ws' with
    | nil =>
      intro h
      exact ⟨w, List.mem_cons_self w [], h⟩
    | cons w2 ws'' =>
      intro h
      obtain ⟨u, v, huv⟩ := h
      rcases noSpace_infix_split u p hp w v (spaceJoin (w2 :: ws''))
          (by simpa [spaceJoin] using huv) with h1 | h1
      · exact ⟨w, List.mem_cons_self w _, h1⟩
      · obtain ⟨w', hw', hpw'⟩ := ih h1
        exact ⟨w', List.mem_cons_of_mem w hw', hpw'⟩

lemma dropWhile_head_not {pr : Char → Bool} :
    ∀ (l : List Char) {c : Char} {rest : List Char},
      l.dropWhile pr = c :: rest → pr c = false := by
  intro l
  induction l with
  | nil => intro c rest h; exact absurd h (by simp)
  | cons a t ih =>
    intro c rest h
    rw [List.dropWhile_cons] at h
    by_cases hpa : pr a
    · rw [if_pos hpa] at h
      exact ih h
    · rw [if_neg hpa] at h
      injection h with h1 _
      subst h1
      simpa using hpa

lemma mem_takeWhile_pred {q : Char → Bool} :
    ∀ (l : List Char) (x : Char), x ∈ l.takeWhile q → q x = true := by
  intro l
  induction l with
  | nil => intro x hx; simp at hx
  | cons a t ih =>
    intro x hx
    rw [List.takeWhile_cons] at hx
    by_cases hqa : q a
    · rw [if_pos hqa] at hx
      rcases List.mem_cons.mp hx with rfl | hx2
      · exact hqa
      · exact ih x hx2
    · rw [if_neg hqa] at hx
      exact absurd hx (List.not_mem_nil x)

lemma pyWordsFuel_sound : ∀ (f : Nat) (l : List Char) (w : List Char),
    w ∈ pyWordsFuel f l →
    w ≠ [] ∧ w.all (fun ch => !isPySpace ch) = true ∧ w <:+: l := by
  intro f
  induction f with
  | zero => intro l w hw; exact absurd hw (List.not_mem_nil w)
  | succ f ih =>
    intro l w hw
    rcases hdw : l.dropWhile isPySpace with _ | ⟨c, rest⟩
    · rw [pyWordsFuel, hdw] at hw
      exact absurd hw (List.not_mem_nil w)
    · rw [pyWordsFuel, hdw] at hw
      have hsfx : (c :: rest) <:+ l := hdw ▸ List.dropWhile_suffix isPySpace
      rcases List.mem_cons.mp hw with rfl | hw2
      · refine ⟨by simp, ?_, ?_⟩
        · rw [List.all_eq_true]
          intro x hx
          rcases List.mem_cons.mp hx with rfl | hx2
          · simpa using dropWhile_head_not l hdw
          · exact mem_takeWhile_pred rest x hx2
        · obtain ⟨u, hu⟩ := hsfx
          obtain ⟨tt, htt⟩ := List.takeWhile_prefix (l := rest)
            (p := fun ch => !isPySpace ch)
          exact ⟨u, tt, by rw [← hu, List.append_assoc, List.cons_append, htt]⟩
      · obtain ⟨hne, hall, hinf⟩ := ih _ _ hw2
        refine ⟨hne, hall, ?_⟩
        have h1 : rest.dropWhile (fun ch => !isPySpace ch) <:+ l :=
          (List.dropWhile_suffix _).trans ((List.suffix_cons c rest).trans hsfx)
        exact hinf.trans h1.isInfix

/-- C8. Committed-transcript normalization: for every inbound committed
frame, the listener invokes `on_committed` with the normalized text exactly
when that text is non-empty (an empty normalization triggers no callback);
the normalized text contains no timing/silence placeholder token; and it is
whitespace-collapsed — a join of non-empty, whitespace-free words separated
by single spaces. -/
theorem committed_normalization (t : Option String) :
    (normalizeCommitted (t.getD "") ≠ "" →
      handleFrame (Frame.committedTranscript t)
        = ListenAction.committedCb (normalizeCommitted (t.getD "")))
    ∧ (normalizeCommitted (t.getD "") = "" →
        handleFrame (Frame.committedTranscript t) = ListenAction.logged)
    ∧ ¬ (placeholder <:+: (normalizeCommitted (t.getD "")).data)
    ∧ (∃ ws, (∀ w ∈ ws, w ≠ [] ∧ w.all (fun ch => !isPySpace ch) = true)
        ∧ (normalizeCommitted (t.getD "")).data = spaceJoin ws) := by
  refine ⟨fun h => by simp [handleFrame, h], fun h => by simp [handleFrame, h], ?_, ?_⟩
  · have hdata : (normalizeCommitted (t.getD "")).data
        = (if removeLoop (pyStrip (t.getD "").data) = [] then []
           else spaceJoin (pyWords (removeLoop (pyStrip (t.getD "").data)))) := rfl
    rw [hdata]
    by_cases hu : removeLoop (pyStrip (t.getD "").data) = []
    · rw [if_pos hu]
      intro hcon
      exact placeholder_ne_nil (List.infix_nil.mp hcon)
    · rw [if_neg hu]
      intro hcon
      obtain ⟨w, hwmem, hwinf⟩ :=
        noSpace_infix_spaceJoin placeholder_ne_nil (by decide) _ hcon
      have hwl := (pyWordsFuel_sound _ _ _ hwmem).2.2
      have : containsTok placeholder (removeLoop (pyStrip (t.getD "").data)) = true :=
        (containsTok_iff placeholder _).mpr (hwinf.trans hwl)
      rw [removeLoop_not_contains] at this
      exact Bool.false_ne_true this
  · by_cases hu : removeLoop (pyStrip (t.getD "").data) = []
    · exact ⟨[], by simp, by simp [normalizeCommitted, hu, spaceJoin]⟩
    · refine ⟨pyWords (removeLoop (pyStrip (t.getD "").data)), ?_,
        by simp [normalizeCommitted, hu]⟩
      intro w hw
      exact ⟨(pyWordsFuel_sound _ _ _ hw).1, (pyWordsFuel_sound _ _ _ hw).2.1⟩

/-- Witness for C8 at concrete frames: a committed frame whose text holds a
placeholder and ragged whitespace is normalized and surfaced; a frame whose
text normalizes to the empty string triggers no callback. -/
theorem committed_normalization_witness :
    normalizeCommitted "00:00:00,000  hello   world " = "hello world"
    ∧ handleFrame (Frame.committedTranscript (some "00:00:00,000  hello   world "))
        = ListenAction.committedCb "hello world"
    ∧ normalizeCommitted " 00:00:00,000 " = ""
    ∧ handleFrame (Frame.committedTranscript (some " 00:00:00,000 "))
        = ListenAction.logged := by
  have h1 := committed_normalization (some "00:00:00,000  hello   world ")
  have h2 := committed_normalization (some " 00:00:00,000 ")
  exact ⟨by decide, h1.1 (by decide), by decide, h2.2.1 (by decide)⟩

/-! ## Downstream dispatcher (`core_info_checker.trigger_downstream`,
`app/services/voice_agent.py`) -/

/-- Modelled from the spec: `call_gp` of `app/services/gp_caller.py` (absent
from the source tree; its test checks the result carries the patient name,
the age, and the `[GP STUB]` marker). -/
def call_gp (patient_name patient_age patient_gender patient_address : String) :
    String :=
  "[GP STUB] Requested GP records for " ++ patient_name ++ ", age " ++ patient_age
    ++ ", " ++ patient_gender ++ ", " ++ patient_address

/-- Modelled from the spec: `query_records` of `app/services/medical_db.py`
(absent from the source tree; its test checks the result carries the patient
name and the `[MEDICAL DB STUB]` marker). -/
def query_records (patient_name patient_age patient_gender : String) : String :=
  "[MEDICAL DB STUB] Queried history for " ++ patient_name ++ ", age "
    ++ patient_age ++ ", " ++ patient_gender

/-- Modelled from the spec: `trigger_downstream` of
`app/services/core_info_checker.py` (absent from the source tree). Spec
section 4.4: invoke the two independent lookup collaborators concurrently
with the record's identity fields and join both results, a fan-out/fan-in
with independent failure domains; its test unpacks the returned pair. -/
def trigger_downstream (r : NEMSISRecord) : String × String :=
  (call_gp (get_full_name r) (r.patient.patient_age.getD "")
    (r.patient.patient_gender.getD "") (r.patient.patient_address.getD ""),
   query_records (get_full_name r) (r.patient.patient_age.getD "")
    (r.patient.patient_gender.getD ""))

/-- The configuration read by `place_gp_call` (`app/config.py`): empty strings
model unset environment variables, matching Python truthiness tests. -/
structure VoiceAgentConfig where
  gp_calls_enabled : Bool := true
  elevenlabs_api_key : String := ""
  elevenlabs_agent_id : String := ""
  elevenlabs_phone_number_id : String := ""
deriving DecidableEq

/-- Outcome of the guarded HTTP POST to the ElevenLabs outbound-call
endpoint: a successful response with its optional `callSid` and
`conversation_id` fields, an `httpx.HTTPStatusError` raised by
`raise_for_status`, or any other exception — the two exception constructors
correspond to the two `except` clauses of the source. -/
inductive HttpOutcome where
  | success (callSid : Option String) (conversationId : Option String)
  | statusError (code : Nat)
  | otherError (msg : String)
deriving DecidableEq

/-- The result dict returned by `place_gp_call`. -/
structure GPCallResult where
  call_sid : Option String := none
  conversation_id : Option String := none
  status : String
  transcript : Option String := none
  error : Option String := none
deriving DecidableEq

/-- `place_gp_call` of `app/services/voice_agent.py` (lines 28-135): four
configuration guards return skipped/error result dicts before any network
call; otherwise the HTTP call runs inside a try whose two except clauses
convert every failure into an error result dict, so no branch raises to the
caller. The payload assembly (dynamic variables with "unknown" defaults) only
feeds the HTTP request and never reaches the returned dict, so it is elided. -/
def place_gp_call (cfg : VoiceAgentConfig) (outcome : HttpOutcome) : GPCallResult :=
  if !cfg.gp_calls_enabled then
    { status := "skipped", transcript := some "GP calls disabled by configuration." }
  else if cfg.elevenlabs_api_key = "" then
    { status := "skipped", transcript := some "GP call skipped: API not configured." }
  else if cfg.elevenlabs_agent_id = "" then
    { status := "error", error := some "ELEVENLABS_AGENT_ID not configured" }
  else if cfg.elevenlabs_phone_number_id = "" then
    { status := "error", error := some "ELEVENLABS_PHONE_NUMBER_ID not configured" }
  else
    match outcome with
    | HttpOutcome.success sid cid =>
      { call_sid := sid, conversation_id := cid, status := "initiated" }
    | HttpOutcome.statusError code =>
      { status := "error", error := some ("HTTP " ++ toString code) }
    | HttpOutcome.otherError msg =>
      { status := "error", error := some msg }

/-- C9. Downstream branch failure isolation: the dispatcher joins the two
lookup results as a pair, each carrying its own stub/status marker, and the
medical-history component is computed independently of the GP branch; and
`place_gp_call` never raises — for every configuration and HTTP outcome it
returns a result dict whose status is skipped, error, or initiated, with
disabled configuration and a missing credential marked skipped, and missing
agent/phone configuration, HTTP errors, and all other failures marked
errored. -/
theorem downstream_isolation (r : NEMSISRecord) (cfg : VoiceAgentConfig)
    (outcome : HttpOutcome) :
    ("[GP STUB]".data <+: (trigger_downstream r).1.data)
    ∧ ("[MEDICAL DB STUB]".data <+: (trigger_downstream r).2.data)
    ∧ ((trigger_downstream r).2
        = query_records (get_full_name r) (r.patient.patient_age.getD "")
            (r.patient.patient_gender.getD ""))
    ∧ ((place_gp_call cfg outcome).status = "skipped"
        ∨ (place_gp_call cfg outcome).status = "error"
        ∨ (place_gp_call cfg outcome).status = "initiated")
    ∧ (cfg.gp_calls_enabled = false → (place_gp_call cfg outcome).status = "skipped")
    ∧ (cfg.gp_calls_enabled = true → cfg.elevenlabs_api_key = "" →
        (place_gp_call cfg outcome).status = "skipped")
    ∧ (cfg.gp_calls_enabled = true → cfg.elevenlabs_api_key ≠ "" →
        cfg.elevenlabs_agent_id = "" → (place_gp_call cfg outcome).status = "error")
    ∧ (cfg.gp_calls_enabled = true → cfg.elevenlabs_api_key ≠ "" →
        cfg.elevenlabs_agent_id ≠ "" → cfg.elevenlabs_phone_number_id = "" →
        (place_gp_call cfg outcome).status = "error")
    ∧ (∀ code, cfg.gp_calls_enabled = true → cfg.elevenlabs_api_key ≠ "" →
        cfg.elevenlabs_agent_id ≠ "" → cfg.elevenlabs_phone_number_id ≠ "" →
        outcome = HttpOutcome.statusError code →
        place_gp_call cfg outcome
          = { status := "error", error := some ("HTTP " ++ toString code) })
    ∧ (∀ msg, cfg.gp_calls_enabled = true → cfg.elevenlabs_api_key ≠ "" →
        cfg.elevenlabs_agent_id ≠ "" → cfg.elevenlabs_phone_number_id ≠ "" →
        outcome = HttpOutcome.otherError msg →
        place_gp_call cfg outcome = { status := "error", error := some msg })
    ∧ (∀ sid cid, cfg.gp_calls_enabled = true → cfg.elevenlabs_api_key ≠ "" →
        cfg.elevenlabs_agent_id ≠ "" → cfg.elevenlabs_phone_number_id ≠ "" →
        outcome = HttpOutcome.success sid cid →
        place_gp_call cfg outcome
          = { call_sid := sid, conversation_id := cid, status := "initiated" }) := by
  refine ⟨?_, ?_, rfl, ?_, ?_, ?_, ?_, ?_, ?_, ?_, ?_⟩
  · have hd : (trigger_downstream r).1.data
        = "[GP STUB] Requested GP records for ".data
          ++ ((get_full_name r).data ++ (", age ".data
            ++ ((r.patient.patient_age.getD "").data ++ (", ".data
              ++ ((r.patient.patient_gender.getD "").data ++ (", ".data
                ++ (r.patient.patient_address.getD "").data)))))) := by
      simp [trigger_downstream, call_gp, String.data_append, List.append_assoc]
    rw [hd]
    exact (by decide : "[GP STUB]".data <+: "[GP STUB] Requested GP records for ".data).trans
      (List.prefix_append _ _)
  · have hd : (trigger_downstream r).2.data
        = "[MEDICAL DB STUB] Queried history for ".data
          ++ ((get_full_name r).data ++ (", age ".data
            ++ ((r.patient.patient_age.getD "").data ++ (", ".data
              ++ (r.patient.patient_gender.getD "").data)))) := by
      simp [trigger_downstream, query_records, String.data_append, List.append_assoc]
    rw [hd]
    exact (by decide :
        "[MEDICAL DB STUB]".data <+: "[MEDICAL DB STUB] Queried history for ".data).trans
      (List.prefix_append _ _)
  · unfold place_gp_call
    split
    · exact Or.inl rfl
    split
    · exact Or.inl rfl
    split
    · exact Or.inr (Or.inl rfl)
    split
    · exact Or.inr (Or.inl rfl)
    cases outcome
    · exact Or.inr (Or.inr rfl)
    · exact Or.inr (Or.inl rfl)
    · exact Or.inr (Or.inl rfl)
  · intro h
    simp [place_gp_call, h]
  · intro h1 h2
    simp [place_gp_call, h1, h2]
  · intro h1 h2 h3
    simp [place_gp_call, h1, h2, h3]
  · intro h1 h2 h3 h4
    simp [place_gp_call, h1, h2, h3, h4]
  · intro code h1 h2 h3 h4 h5
    simp [place_gp_call, h1, h2, h3, h4, h5]
  · intro msg h1 h2 h3 h4 h5
    simp [place_gp_call, h1, h2, h3, h4, h5]
  · intro sid cid h1 h2 h3 h4 h5
    simp [place_gp_call, h1, h2, h3, h4, h5]

/-- Record for the C9 witness, as in `test_trigger_downstream`. -/
def c9Record : NEMSISRecord :=
  { patient :=
      { patient_name_first := some "John"
        patient_name_last := some "Smith"
        patient_age := some "45"
        patient_gender := some "Male"
        patient_address := some "123 Main St" } }

/-- Fully configured agent for the C9 witness. -/
def c9Cfg : VoiceAgentConfig :=
  { gp_calls_enabled := true
    elevenlabs_api_key := "key"
    elevenlabs_agent_id := "agent"
    elevenlabs_phone_number_id := "phone" }

/-- Witness for C9 at concrete inputs: the joined pair carries both stub
markers and the patient name, and an HTTP 500 failure of the GP branch is
isolated into an error result dict while the medical-history result is
unchanged. -/
theorem downstream_isolation_witness :
    ("[GP STUB]".data <+: (trigger_downstream c9Record).1.data)
    ∧ ("[MEDICAL DB STUB]".data <+: (trigger_downstream c9Record).2.data)
    ∧ (trigger_downstream c9Record).2
        = "[MEDICAL DB STUB] Queried history for John Smith, age 45, Male"
    ∧ place_gp_call c9Cfg (HttpOutcome.statusError 500)
        = { status := "error", error := some "HTTP 500" } := by
  have h := downstream_isolation c9Record c9Cfg (HttpOutcome.statusError 500)
  refine ⟨h.1, h.2.1, ?_, ?_⟩
  · rw [h.2.2.1]; decide
  · have h500 := h.2.2.2.2.2.2.2.2.1 500 rfl (by decide) (by decide) (by decide) rfl
    rw [h500]; decide

end AriaHealth
